import Mathlib

/-!
Shallow embedding of `pokedex.py`, a single-file command-line Pokédex:
fetch one record from a web service, extract a fixed subset of fields,
display it, and persist it as an indented JSON file.

Modelling conventions:
* Python/JSON values are `PyVal`; Python exceptions raised by subscripting
  (`KeyError`, `TypeError`/`AttributeError`) are `Except PyErr`.
* Python floats are exact rationals. Every float this program builds is an
  integer divided by 10, and on those values CPython's `repr` (used by
  `json.dump`) prints the exact decimal, so the rational model is faithful.
* The network is an oracle `String → NetResult` mapping a URL to either a
  status/body response or a transport failure; `requests.get` consults it.
* `print` output that carries error-classification or success information is
  recorded as `Msg` events; purely decorative banner prints are not modelled.
* The filesystem is an explicit `FS` state (set of directories, map from
  path to file contents).
-/

namespace Pokedex

/-- A Python value as produced by parsing the service's JSON body. -/
inductive PyVal where
  | null
  | str (s : String)
  | int (n : Int)
  | float (q : ℚ)
  | arr (xs : List PyVal)
  | obj (kvs : List (String × PyVal))

/-- A Python exception escaping a dictionary/attribute access. -/
inductive PyErr where
  | keyError (k : String)
  | typeError (msg : String)
deriving DecidableEq

/-- Python `d[k]` on a value: a key lookup on a dict, `KeyError` when the key
is absent, `TypeError` when the value is not a dict. -/
def pyGet (v : PyVal) (k : String) : Except PyErr PyVal :=
  match v with
  | .obj kvs =>
      match kvs.lookup k with
      | some w => .ok w
      | none => .error (.keyError k)
  | _ => .error (.typeError "value is not subscriptable by a string key")

/-- Expect a Python string (used where the code calls a `str` method on it). -/
def asStr (v : PyVal) : Except PyErr String :=
  match v with
  | .str s => .ok s
  | _ => .error (.typeError "expected a string")

/-- Expect a Python number, as an exact rational (`int` or `float`). -/
def asNum (v : PyVal) : Except PyErr ℚ :=
  match v with
  | .int n => .ok (n : ℚ)
  | .float q => .ok q
  | _ => .error (.typeError "expected a number")

/-- Expect a Python int (the record's numeric identifier). -/
def asInt (v : PyVal) : Except PyErr Int :=
  match v with
  | .int n => .ok n
  | _ => .error (.typeError "expected an integer")

/-- Expect a Python list (used where the code iterates or slices). -/
def asArr (v : PyVal) : Except PyErr (List PyVal) :=
  match v with
  | .arr xs => .ok xs
  | _ => .error (.typeError "expected a list")

/-- Expect a string-or-null (the sprite URL field, nullable in the service). -/
def asOptStr (v : PyVal) : Except PyErr (Option String) :=
  match v with
  | .null => .ok none
  | .str s => .ok (some s)
  | _ => .error (.typeError "expected a string or null")

/-- Python `str.capitalize`: first character uppercased, the rest lowercased
(ASCII case mapping; nothing in this development depends on non-ASCII case). -/
def pyCapitalize (s : String) : String :=
  match s.data with
  | [] => ""
  | c :: cs => String.mk (c.toUpper :: cs.map Char.toLower)

/-- Python `str.lower` (ASCII case mapping). -/
def pyLower (s : String) : String :=
  String.mk (s.data.map Char.toLower)

/-- Python `str.replace("-", " ")`: the pattern is a single character, so it
is a character-wise substitution. -/
def pyReplaceDash (s : String) : String :=
  String.mk (s.data.map fun c => if c = '-' then ' ' else c)

/-- Python `str.replace(" ", "_")` (used to derive the output filename). -/
def pySpaceToUnderscore (s : String) : String :=
  String.mk (s.data.map fun c => if c = ' ' then '_' else c)

/-- Python's default `str.strip` whitespace class (the ASCII part; the names
this program strips contain at most spaces and tabs). -/
def isPySpace (c : Char) : Bool :=
  c = ' ' || c = '\t' || c = '\n' || c = '\r' || c = '\x0b' || c = '\x0c'

/-- Python `str.strip()`: drop leading and trailing whitespace. -/
def pyStrip (s : String) : String :=
  String.mk (((s.data.dropWhile isPySpace).reverse.dropWhile isPySpace).reverse)

/-- The flat record `extraer_informacion_relevante` builds (its Python dict,
with the dict's fixed key set promoted to fields; the keys' insertion order is
recorded by `infoToJson` below). -/
structure Info where
  nombre : String
  id : Int
  peso_kg : ℚ
  altura_m : ℚ
  imagen_frontal_url : Option String
  tipos : List String
  habilidades : List String
  movimientos_principales : List String
deriving DecidableEq

/-- A Python list comprehension whose element expression may raise: the
first exception aborts the whole comprehension. -/
def mapE (f : PyVal → Except PyErr String) : List PyVal → Except PyErr (List String)
  | [] => .ok []
  | x :: xs => do
      let y ← f x
      let ys ← mapE f xs
      pure (y :: ys)

/-- One element of the raw `types` list: `t["type"]["name"].capitalize()`. -/
def extractTypeName (t : PyVal) : Except PyErr String := do
  let ty ← pyGet t "type"
  let nm ← pyGet ty "name"
  let s ← asStr nm
  pure (pyCapitalize s)

/-- One element of the raw `abilities` list:
`a["ability"]["name"].replace("-", " ").capitalize()`. -/
def extractAbilityName (a : PyVal) : Except PyErr String := do
  let ab ← pyGet a "ability"
  let nm ← pyGet ab "name"
  let s ← asStr nm
  pure (pyCapitalize (pyReplaceDash s))

/-- One element of the raw `moves` list:
`m["move"]["name"].replace("-", " ").capitalize()`. -/
def extractMoveName (m : PyVal) : Except PyErr String := do
  let mv ← pyGet m "move"
  let nm ← pyGet mv "name"
  let s ← asStr nm
  pure (pyCapitalize (pyReplaceDash s))

/-- `extraer_informacion_relevante`: reshape the raw record into the flat
dict. The accesses happen in the dict literal's evaluation order (name, id,
weight, height, sprites.front_default, types, abilities, moves), and every
access is unguarded, so the first missing key raises. `weight / 10` and
`height / 10` are Python true division, exact on the rational model. -/
def extraer_informacion_relevante (datos_pokemon : PyVal) : Except PyErr Info := do
  let nameV ← pyGet datos_pokemon "name"
  let nameS ← asStr nameV
  let idV ← pyGet datos_pokemon "id"
  let idN ← asInt idV
  let weightV ← pyGet datos_pokemon "weight"
  let weightQ ← asNum weightV
  let heightV ← pyGet datos_pokemon "height"
  let heightQ ← asNum heightV
  let spritesV ← pyGet datos_pokemon "sprites"
  let frontV ← pyGet spritesV "front_default"
  let front ← asOptStr frontV
  let typesV ← pyGet datos_pokemon "types"
  let typesL ← asArr typesV
  let tipos ← mapE extractTypeName typesL
  let abilitiesV ← pyGet datos_pokemon "abilities"
  let abilitiesL ← asArr abilitiesV
  let habilidades ← mapE extractAbilityName abilitiesL
  let movesV ← pyGet datos_pokemon "moves"
  let movesL ← asArr movesV
  let movimientos ← mapE extractMoveName (movesL.take 5)
  pure { nombre := pyCapitalize nameS
         id := idN
         peso_kg := weightQ / 10
         altura_m := heightQ / 10
         imagen_frontal_url := front
         tipos := tipos
         habilidades := habilidades
         movimientos_principales := movimientos }

/-- A raw record of the shape the service documents (section 6 of the spec):
all eight required nested keys present, with the given field values. -/
def mkRaw (name : String) (id weight height : Int) (sprite : Option String)
    (types abilities moves : List String) : PyVal :=
  .obj [("name", .str name),
        ("id", .int id),
        ("weight", .int weight),
        ("height", .int height),
        ("sprites", .obj [("front_default",
            match sprite with | none => .null | some s => .str s)]),
        ("types", .arr (types.map fun t => .obj [("type", .obj [("name", .str t)])])),
        ("abilities", .arr (abilities.map fun a =>
            .obj [("ability", .obj [("name", .str a)])])),
        ("moves", .arr (moves.map fun m => .obj [("move", .obj [("name", .str m)])]))]

/-! ### Serialization: `json.dump(info, f, indent=4, ensure_ascii=False)`

The serializer is specialized to the fixed shape of the extracted record (a
dict of scalars and lists of strings), reproducing character for character
what `json.dump` emits for that shape: 4-space indentation, `", "`/`": "`
separators collapsed to `",\n"`/`": "` by the indent mode, and non-ASCII
characters written literally (`ensure_ascii=False`). -/

/-- The double-quote character. -/
def qmark : Char := Char.ofNat 34

/-- The backslash character. -/
def bslash : Char := Char.ofNat 92

/-- The opening-brace character. -/
def obrace : Char := Char.ofNat 123

/-- The closing-brace character. -/
def cbrace : Char := Char.ofNat 125

/-- Hexadecimal digit character for `n < 16` (lowercase, as CPython emits). -/
def hexDig (n : Nat) : Char :=
  if n < 10 then Char.ofNat (48 + n) else Char.ofNat (87 + n)

/-- One character as `json.dump` writes it inside a string literal with
`ensure_ascii=False`: quote, backslash and the named control characters get a
two-character escape, any other control character becomes `\u00XX`, and every
remaining character (ASCII or not) is written literally. -/
def escChar (c : Char) : List Char :=
  if c = qmark then [bslash, qmark]
  else if c = bslash then [bslash, bslash]
  else if c = '\n' then [bslash, 'n']
  else if c = '\t' then [bslash, 't']
  else if c = '\r' then [bslash, 'r']
  else if c.toNat = 8 then [bslash, 'b']
  else if c.toNat = 12 then [bslash, 'f']
  else if c.toNat < 32 then
    [bslash, 'u', '0', '0', hexDig (c.toNat / 16), hexDig (c.toNat % 16)]
  else [c]

/-- A JSON string literal: quote, escaped characters, quote. -/
def strChars (s : String) : List Char :=
  qmark :: ((s.data.map escChar).flatten ++ [qmark])

/-- Decimal digit characters of a natural number, most significant first. -/
def natDigits (n : Nat) : List Char :=
  if h : n < 10 then [Char.ofNat (48 + n)]
  else natDigits (n / 10) ++ [Char.ofNat (48 + n % 10)]
decreasing_by exact Nat.div_lt_self (by omega) (by omega)

/-- A Python `int` as `repr` (hence `json.dump`) writes it. -/
def intChars (i : Int) : List Char :=
  if i < 0 then '-' :: natDigits i.natAbs else natDigits i.natAbs

/-- A nonnegative multiple of one tenth, as CPython's `repr` prints the float
nearest to it: integral part, a dot, and the tenths digit. -/
def tenthChars (w : Nat) : List Char :=
  natDigits (w / 10) ++ '.' :: [Char.ofNat (48 + w % 10)]

/-- A Python float as `json.dump` writes it. Exact for the values this
program produces (an integer divided by 10, where `repr` prints the exact
decimal); values outside that domain are not used by the pipeline. -/
def floatChars (q : ℚ) : List Char :=
  if q < 0 then '-' :: tenthChars (-(q * 10)).num.toNat
  else tenthChars (q * 10).num.toNat

/-- A string-or-null field (`null` or a string literal). -/
def optStrChars (v : Option String) : List Char :=
  match v with
  | none => ['n', 'u', 'l', 'l']
  | some s => strChars s

/-- Eight spaces: the indentation of a list element nested in the record. -/
def ind8 : List Char := [' ', ' ', ' ', ' ', ' ', ' ', ' ', ' ']

/-- Four spaces: the indentation of a top-level key of the record. -/
def ind4 : List Char := [' ', ' ', ' ', ' ']

/-- The elements of a nonempty string list, each on its own indented line,
separated by commas (the tail of `json.dump`'s array layout). -/
def strItemsChars (s : String) : List String → List Char
  | [] => strChars s
  | t :: ts => strChars s ++ ',' :: '\n' :: (ind8 ++ strItemsChars t ts)

/-- A list of strings as `json.dump` lays it out one level deep: `[]` when
empty, otherwise one element per line at depth two with the closing bracket
at depth one. -/
def strListChars : List String → List Char
  | [] => ['[', ']']
  | s :: ss => '[' :: '\n' :: (ind8 ++ strItemsChars s ss) ++ '\n' :: (ind4 ++ [']'])

/-- One top-level member line of the record: indentation, quoted key, colon,
space, rendered value. -/
def memberChars (key : String) (v : List Char) : List Char :=
  ind4 ++ strChars key ++ ':' :: ' ' :: v

/-- The full file contents `json.dump` writes for the extracted record: the
eight keys in the dict's insertion order. -/
def infoContentChars (info : Info) : List Char :=
  obrace :: '\n' ::
    (memberChars "nombre" (strChars info.nombre) ++ ',' :: '\n' ::
     (memberChars "id" (intChars info.id) ++ ',' :: '\n' ::
      (memberChars "peso_kg" (floatChars info.peso_kg) ++ ',' :: '\n' ::
       (memberChars "altura_m" (floatChars info.altura_m) ++ ',' :: '\n' ::
        (memberChars "imagen_frontal_url" (optStrChars info.imagen_frontal_url) ++ ',' :: '\n' ::
         (memberChars "tipos" (strListChars info.tipos) ++ ',' :: '\n' ::
          (memberChars "habilidades" (strListChars info.habilidades) ++ ',' :: '\n' ::
           (memberChars "movimientos_principales"
              (strListChars info.movimientos_principales) ++ '\n' :: [cbrace]))))))))

/-- The file contents as a string. -/
def infoContent (info : Info) : String := String.mk (infoContentChars info)

/-- The extracted record as the JSON value its file encodes: the dict's keys
in insertion order, the nullable sprite URL as string-or-null, the numeric
fields as JSON numbers. -/
def infoToJson (info : Info) : PyVal :=
  .obj [("nombre", .str info.nombre),
        ("id", .int info.id),
        ("peso_kg", .float info.peso_kg),
        ("altura_m", .float info.altura_m),
        ("imagen_frontal_url",
           match info.imagen_frontal_url with | none => .null | some s => .str s),
        ("tipos", .arr (info.tipos.map PyVal.str)),
        ("habilidades", .arr (info.habilidades.map PyVal.str)),
        ("movimientos_principales", .arr (info.movimientos_principales.map PyVal.str))]

/-! ### Filesystem, persister, fetcher, orchestrator -/

/-- The observable filesystem state: which directories exist, and each file
path's contents (an association list; the head entry is the current one). -/
structure FS where
  dirs : List String
  files : List (String × String)
deriving DecidableEq

/-- Contents of the file at a path, if present. -/
def FS.lookupFile (fs : FS) (p : String) : Option String :=
  fs.files.lookup p

/-- `os.makedirs(d, exist_ok=True)`: create the directory, succeeding
silently when it already exists. -/
def FS.makedirs (fs : FS) (d : String) : FS :=
  if d ∈ fs.dirs then fs else { fs with dirs := d :: fs.dirs }

/-- `open(path, "w")` followed by a full write: unconditionally replace the
file's contents. -/
def FS.writeFile (fs : FS) (p c : String) : FS :=
  { fs with files := (p, c) :: fs.files }

/-- The user-visible classification messages the program prints. -/
inductive Msg where
  | notFound (nombre : String)
  | serviceError (status : Nat)
  | connectionError (detail : String)
  | emptyName
  | display (info : Info)
  | saved (path : String)
deriving DecidableEq

/-- `BASE_URL`, the hardcoded service address. -/
def BASE_URL : String := "https://pokeapi.co/api/v2/pokemon/"

/-- `POKEDEX_FOLDER`, the hardcoded output directory name. -/
def POKEDEX_FOLDER : String := "pokedex"

/-- What `requests.get` can yield: a response with a status code and a parsed
body, or a connection-level failure (no network, DNS failure, timeout). -/
inductive NetResult where
  | response (status : Nat) (body : PyVal)
  | connError (detail : String)

/-- `guardar_informacion_json`: ensure the output directory exists, derive
the filename from the record's name (lowercased, spaces to underscores,
`.json` suffix), and overwrite the file with the serialized record. The
success message carries the target path. -/
def guardar_informacion_json (info : Info) (fs : FS) : FS × List Msg :=
  let fs1 := fs.makedirs POKEDEX_FOLDER
  let nombre_archivo := pySpaceToUnderscore (pyLower info.nombre) ++ ".json"
  let ruta_completa := POKEDEX_FOLDER ++ "/" ++ nombre_archivo
  (fs1.writeFile ruta_completa (infoContent info), [.saved ruta_completa])

/-- The URL `obtener_datos_pokemon` requests for a query string. -/
def urlFor (nombre : String) : String :=
  BASE_URL ++ pyStrip (pyLower nombre)

/-- `obtener_datos_pokemon`: normalize the name (lowercase, strip), issue one
GET against the oracle, and classify the outcome: 200 returns the parsed
body, 404 reports the name as unknown (quoting the original input) and
returns `None`, any other status reports that status and returns `None`, and
a transport failure reports its detail and returns `None`. -/
def obtener_datos_pokemon (net : String → NetResult) (nombre_pokemon : String) :
    Option PyVal × List Msg :=
  match net (urlFor nombre_pokemon) with
  | .response status body =>
      if status = 200 then (some body, [])
      else if status = 404 then (none, [.notFound nombre_pokemon])
      else (none, [.serviceError status])
  | .connError detail => (none, [.connectionError detail])

/-- Python truthiness of a parsed JSON value (`if datos_completos:`): `None`,
empty containers, empty strings and zero are falsy, everything else truthy. -/
def pyTruthy : PyVal → Bool
  | .null => false
  | .str s => !s.isEmpty
  | .int n => !(n = 0)
  | .float q => !(q = 0)
  | .arr xs => !xs.isEmpty
  | .obj kvs => !kvs.isEmpty

/-- `mostrar_datos_pokemon`: pure console rendering of the record, modelled
as the single display event carrying it. -/
def mostrar_datos_pokemon (info : Info) : Msg := .display info

/-- The observable outcome of one program run: the final filesystem, the
classification messages printed, and the URLs requested. -/
structure RunOut where
  fs : FS
  msgs : List Msg
  reqs : List String
deriving DecidableEq

/-- `ejecutar_pokedex`: read one input line; an empty string stops with a
message before any request; otherwise fetch, and when the fetched value is
truthy (Python `if datos_completos:`), extract, display and persist. No
handler surrounds extraction, so an exception it raises escapes the whole
run (the `Except.error` outcome). -/
def ejecutar_pokedex (net : String → NetResult) (nombre_busqueda : String)
    (fs : FS) : Except PyErr RunOut :=
  if nombre_busqueda = "" then
    .ok ⟨fs, [.emptyName], []⟩
  else
    let fetched := obtener_datos_pokemon net nombre_busqueda
    match fetched.1 with
    | some datos =>
        if pyTruthy datos then
          match extraer_informacion_relevante datos with
          | .error e => .error e
          | .ok info =>
              let saved := guardar_informacion_json info fs
              .ok ⟨saved.1, fetched.2 ++ mostrar_datos_pokemon info :: saved.2,
                   [urlFor nombre_busqueda]⟩
        else .ok ⟨fs, fetched.2, [urlFor nombre_busqueda]⟩
    | none => .ok ⟨fs, fetched.2, [urlFor nombre_busqueda]⟩

/-! ### A JSON reader, for the round-trip claim

The program never parses JSON back, so the reader below is not a translation
of source code: it is the standard recursive-descent reading of the value
grammar `json.dump` emits for the record type above (null, strings with
escapes including `\uXXXX`, integer and decimal numbers, arrays, objects,
arbitrary whitespace between tokens). Recursion is on an explicit fuel. -/

/-- Whitespace insignificant between JSON tokens. -/
def isJsWs (c : Char) : Bool := c = ' ' || c = '\n' || c = '\t' || c = '\r'

/-- Skip insignificant whitespace. -/
def jsSkip : List Char → List Char
  | c :: cs => if isJsWs c then jsSkip cs else c :: cs
  | [] => []

/-- A decimal digit character. -/
def isDig (c : Char) : Bool := 48 ≤ c.toNat && c.toNat ≤ 57

/-- Value of a hexadecimal digit character. -/
def hexNum (c : Char) : Option Nat :=
  if 48 ≤ c.toNat ∧ c.toNat ≤ 57 then some (c.toNat - 48)
  else if 97 ≤ c.toNat ∧ c.toNat ≤ 102 then some (c.toNat - 87)
  else if 65 ≤ c.toNat ∧ c.toNat ≤ 70 then some (c.toNat - 55)
  else none

/-- The character named by a two-character escape. -/
def unescChar (e : Char) : Option Char :=
  if e = qmark then some qmark
  else if e = bslash then some bslash
  else if e = '/' then some '/'
  else if e = 'n' then some '\n'
  else if e = 't' then some '\t'
  else if e = 'r' then some '\r'
  else if e = 'b' then some (Char.ofNat 8)
  else if e = 'f' then some (Char.ofNat 12)
  else none

/-- Read a string body after its opening quote, undoing escapes, up to the
closing quote; yields the characters and the remaining input. -/
def parseStrBody : List Char → Option (List Char × List Char)
  | c :: r =>
      if c = qmark then some ([], r)
      else if c = bslash then
        match r with
        | e :: r2 =>
            if e = 'u' then
              match r2 with
              | a :: b :: c3 :: d :: r3 =>
                  match hexNum a, hexNum b, hexNum c3, hexNum d with
                  | some va, some vb, some vc, some vd =>
                      (parseStrBody r3).map fun p =>
                        (Char.ofNat (((va * 16 + vb) * 16 + vc) * 16 + vd) :: p.1, p.2)
                  | _, _, _, _ => none
              | _ => none
            else
              match unescChar e with
              | some c2 => (parseStrBody r2).map fun p => (c2 :: p.1, p.2)
              | none => none
        | [] => none
      else (parseStrBody r).map fun p => (c :: p.1, p.2)
  | [] => none

/-- Consume a maximal run of decimal digits. -/
def takeDigs : List Char → List Char × List Char
  | c :: cs =>
      if isDig c then
        let p := takeDigs cs
        (c :: p.1, p.2)
      else ([], c :: cs)
  | [] => ([], [])

/-- The natural number a digit run denotes. -/
def digsNat (ds : List Char) : Nat :=
  ds.foldl (fun a c => a * 10 + (c.toNat - 48)) 0

/-- Input that cannot extend a digit run: exhausted, or headed by a
non-digit. -/
def noDigHead : List Char → Bool
  | [] => true
  | c :: _ => !isDig c

/-- Input that cannot extend an integer into a fraction: exhausted, or headed
by anything but a dot. -/
def noDotHead : List Char → Bool
  | [] => true
  | c :: _ => !(c = '.')

/-- Read an unsigned number after an already-consumed optional sign: integer
digits, then an optional fraction. Without a fraction the value is an
integer, with one it is a float (exact, since the model's floats are
rationals). -/
def parseUNum (neg : Bool) (cs : List Char) : Option (PyVal × List Char) :=
  let ip := takeDigs cs
  if ip.1 = [] then none
  else
    match ip.2 with
    | c :: r =>
        if c = '.' then
          let fp := takeDigs r
          if fp.1 = [] then none
          else some (.float ((if neg then -1 else 1) *
              ((digsNat ip.1 : ℚ) + (digsNat fp.1 : ℚ) / (10 : ℚ) ^ fp.1.length)), fp.2)
        else some (.int ((if neg then -1 else 1) * (digsNat ip.1 : ℤ)), c :: r)
    | [] => some (.int ((if neg then -1 else 1) * (digsNat ip.1 : ℤ)), [])

/-- Read a number: optional minus sign, then the unsigned part. -/
def parseNum (cs : List Char) : Option (PyVal × List Char) :=
  match cs with
  | c :: r => if c = '-' then parseUNum true r else parseUNum false (c :: r)
  | [] => none

mutual

/-- Read one JSON value (fuel-bounded). -/
def parseVal : Nat → List Char → Option (PyVal × List Char)
  | 0, _ => none
  | fuel + 1, cs =>
      match jsSkip cs with
      | [] => none
      | c :: r =>
          if c = qmark then
            (parseStrBody r).map fun p => (.str (String.mk p.1), p.2)
          else if c = '[' then
            match jsSkip r with
            | ']' :: r2 => some (.arr [], r2)
            | cs2 => (parseItems fuel cs2).map fun p => (.arr p.1, p.2)
          else if c = obrace then
            match jsSkip r with
            | c2 :: r2 =>
                if c2 = cbrace then some (.obj [], r2)
                else (parseMems fuel (c2 :: r2)).map fun p => (.obj p.1, p.2)
            | [] => none
          else if c = 'n' then
            match r with
            | 'u' :: 'l' :: 'l' :: r2 => some (.null, r2)
            | _ => none
          else if c = '-' || isDig c then parseNum (c :: r)
          else none

/-- Read one or more comma-separated array elements up to `]`. -/
def parseItems : Nat → List Char → Option (List PyVal × List Char)
  | 0, _ => none
  | fuel + 1, cs =>
      match parseVal fuel cs with
      | none => none
      | some (v, r) =>
          match jsSkip r with
          | c :: r2 =>
              if c = ',' then (parseItems fuel r2).map fun p => (v :: p.1, p.2)
              else if c = ']' then some ([v], r2)
              else none
          | [] => none

/-- Read one or more comma-separated object members up to the closing
brace. -/
def parseMems : Nat → List Char → Option (List (String × PyVal) × List Char)
  | 0, _ => none
  | fuel + 1, cs =>
      match jsSkip cs with
      | c :: r =>
          if c = qmark then
            match parseStrBody r with
            | some (k, r1) =>
                match jsSkip r1 with
                | c2 :: r2 =>
                    if c2 = ':' then
                      match parseVal fuel r2 with
                      | some (v, r3) =>
                          match jsSkip r3 with
                          | c3 :: r4 =>
                              if c3 = ',' then
                                (parseMems fuel r4).map fun p =>
                                  ((String.mk k, v) :: p.1, p.2)
                              else if c3 = cbrace then some ([(String.mk k, v)], r4)
                              else none
                          | [] => none
                      | none => none
                    else none
                | [] => none
            | none => none
          else none
      | [] => none

end

/-- One member line followed by what comes after it (proof-side view of the
record layout). -/
def memberTail (key : String) (vch : List Char) (next : List Char) : List Char :=
  ind4 ++ (strChars key ++ (':' :: ' ' :: (vch ++ next)))

/-- The eight member lines of the record's object, right-nested, followed by
the closing brace and `rest` (proof-side view of the record layout). -/
def membersChain (info : Info) (rest : List Char) : List Char :=
  memberTail "nombre" (strChars info.nombre) (',' :: ('\n' ::
    memberTail "id" (intChars info.id) (',' :: ('\n' ::
      memberTail "peso_kg" (floatChars info.peso_kg) (',' :: ('\n' ::
        memberTail "altura_m" (floatChars info.altura_m) (',' :: ('\n' ::
          memberTail "imagen_frontal_url" (optStrChars info.imagen_frontal_url)
            (',' :: ('\n' ::
              memberTail "tipos" (strListChars info.tipos) (',' :: ('\n' ::
                memberTail "habilidades" (strListChars info.habilidades) (',' :: ('\n' ::
                  memberTail "movimientos_principales"
                    (strListChars info.movimientos_principales)
                    ('\n' :: (cbrace :: rest))))))))))))))))

/-- Read a complete JSON document: one value, then only whitespace. The fuel
`length + 1` is enough for any input, since every step of the mutual
recursion consumes at least one character. -/
def parseJson (s : String) : Option PyVal :=
  match parseVal (s.data.length + 1) s.data with
  | some (v, r) => if jsSkip r = [] then some v else none
  | none => none

/-! ### Shared concrete fixtures for the claim theorems -/

/-- The names of an object's keys, in order. -/
def objKeys : PyVal → List String
  | .obj kvs => kvs.map Prod.fst
  | _ => []

/-- The empty filesystem. -/
def fs0 : FS := ⟨[], []⟩

/-- A filesystem where the output directory already exists. -/
def fsD : FS := ⟨[POKEDEX_FOLDER], []⟩

/-- A raw record with a `name` but no other key (`id` is the first one the
extractor then misses). -/
def rawMissingId : PyVal := .obj [("name", .str "pikachu")]

/-- A service whose 200 responses carry `rawMissingId`. -/
def netMissingId : String → NetResult := fun _ => .response 200 rawMissingId

/-- A service that answers 404 to everything. -/
def net404 : String → NetResult := fun _ => .response 404 .null

/-- A service that answers 500 to everything. -/
def net500 : String → NetResult := fun _ => .response 500 .null

/-- A service that is unreachable. -/
def netConnFail : String → NetResult := fun _ => .connError "no internet"

/-- A service that always returns an empty JSON object with status 200. -/
def netEmptyObj : String → NetResult := fun _ => .response 200 (.obj [])

/-- A well-formed raw record for the canonical example entity. -/
def rawPikachu : PyVal :=
  mkRaw "pikachu" 25 60 4 (some "https://img.example/25.png") ["electric"]
    ["static", "lightning-rod"]
    ["mega-punch", "pay-day", "thunder-punch", "slam", "double-kick", "mega-kick"]

/-- A service knowing exactly the canonical example entity. -/
def netPikachu : String → NetResult := fun u =>
  if u = BASE_URL ++ "pikachu" then .response 200 rawPikachu else .connError "offline"

/-- The moves of the concrete scenario record (seven of them). -/
def movesB : List String :=
  ["razor-wind", "swords-dance", "cut", "bind", "vine-whip", "headbutt", "tackle"]

/-- The extracted record of the concrete scenario. -/
def infoBulba : Info :=
  { nombre := "Bulbasaur"
    id := 1
    peso_kg := 69 / 10
    altura_m := 7 / 10
    imagen_frontal_url := none
    tipos := ["Grass", "Poison"]
    habilidades := ["Overgrow"]
    movimientos_principales := ["Razor wind", "Swords dance", "Cut", "Bind", "Vine whip"] }

/-! ### The extraction of a well-formed raw record, computed once -/

/-- Extracting a type entry of the documented shape yields its capitalized
name. -/
theorem extractTypeName_mk (t : String) :
    extractTypeName (.obj [("type", .obj [("name", .str t)])])
      = .ok (pyCapitalize t) := rfl

/-- Extracting an ability entry yields its name with hyphens replaced by
spaces, capitalized. -/
theorem extractAbilityName_mk (a : String) :
    extractAbilityName (.obj [("ability", .obj [("name", .str a)])])
      = .ok (pyCapitalize (pyReplaceDash a)) := rfl

/-- Extracting a move entry yields its name with hyphens replaced by spaces,
capitalized. -/
theorem extractMoveName_mk (m : String) :
    extractMoveName (.obj [("move", .obj [("name", .str m)])])
      = .ok (pyCapitalize (pyReplaceDash m)) := rfl

/-- Reduction of a successful bind in the `Except` monad. -/
theorem bind_ok_eq {α β : Type} (a : α) (f : α → Except PyErr β) :
    (Except.ok a >>= f : Except PyErr β) = f a := rfl

/-- Mapping the type extraction over a documented-shape list succeeds with
the capitalized names. -/
theorem mapE_types (ts : List String) :
    mapE extractTypeName (ts.map fun t => PyVal.obj [("type", .obj [("name", .str t)])])
      = Except.ok (ts.map pyCapitalize) := by
  induction ts with
  | nil => rfl
  | cons t ts ih => simp [mapE, extractTypeName_mk, ih, bind_ok_eq]

/-- Mapping the ability extraction over a documented-shape list succeeds with
the transformed names. -/
theorem mapE_abilities (as : List String) :
    mapE extractAbilityName
        (as.map fun a => PyVal.obj [("ability", .obj [("name", .str a)])])
      = Except.ok (as.map fun a => pyCapitalize (pyReplaceDash a)) := by
  induction as with
  | nil => rfl
  | cons a as ih => simp [mapE, extractAbilityName_mk, ih, bind_ok_eq]

/-- Mapping the move extraction over a documented-shape list succeeds with
the transformed names. -/
theorem mapE_moves (ms : List String) :
    mapE extractMoveName (ms.map fun m => PyVal.obj [("move", .obj [("name", .str m)])])
      = Except.ok (ms.map fun m => pyCapitalize (pyReplaceDash m)) := by
  induction ms with
  | nil => rfl
  | cons m ms ih => simp [mapE, extractMoveName_mk, ih, bind_ok_eq]

/-- On a raw record of the documented shape the extractor succeeds, and every
field of the result is the specified transform of the corresponding source
field: capitalized name, identifier passed through, weight and height divided
by 10 exactly, sprite URL passed through (null becomes `None`), capitalized
type names, ability names with hyphens replaced then capitalized, and the
first five moves in source order with the same transform. -/
theorem extraer_mkRaw (name : String) (id weight height : Int)
    (sprite : Option String) (types abilities moves : List String) :
    extraer_informacion_relevante (mkRaw name id weight height sprite types abilities moves)
      = .ok { nombre := pyCapitalize name
              id := id
              peso_kg := (weight : ℚ) / 10
              altura_m := (height : ℚ) / 10
              imagen_frontal_url := sprite
              tipos := types.map pyCapitalize
              habilidades := abilities.map fun a => pyCapitalize (pyReplaceDash a)
              movimientos_principales :=
                (moves.take 5).map fun m => pyCapitalize (pyReplaceDash m) } := by
  have hmoves : mapE extractMoveName
        ((moves.map fun m => PyVal.obj [("move", .obj [("name", .str m)])]).take 5)
      = Except.ok ((moves.take 5).map fun m => pyCapitalize (pyReplaceDash m)) := by
    rw [← List.map_take, mapE_moves]
  cases sprite with
  | none =>
      simp [extraer_informacion_relevante, mkRaw, pyGet, List.lookup, asStr, asInt,
            asNum, asOptStr, asArr, mapE_types, mapE_abilities, hmoves, bind_ok_eq]
  | some s =>
      simp [extraer_informacion_relevante, mkRaw, pyGet, List.lookup, asStr, asInt,
            asNum, asOptStr, asArr, mapE_types, mapE_abilities, hmoves, bind_ok_eq]

/-! ### Helper lemmas for the claim theorems -/

/-- Reduction of a failed bind in the `Except` monad. -/
theorem bind_error_eq {α β : Type} (e : PyErr) (f : α → Except PyErr β) :
    (Except.error e >>= f : Except PyErr β) = .error e := rfl

/-- Lowercasing fixes every whitespace character. -/
theorem toLower_of_space {c : Char} (h : isPySpace c = true) : c.toLower = c := by
  simp only [isPySpace, Bool.or_eq_true, decide_eq_true_eq] at h
  rcases h with ((((h | h) | h) | h) | h) | h <;> subst h <;> decide

/-- A string of nothing but whitespace normalizes (lowercase, strip) to the
empty string. -/
theorem normalize_ws_eq_empty {s : String} (h : ∀ c ∈ s.data, isPySpace c = true) :
    pyStrip (pyLower s) = "" := by
  have hall : ∀ c ∈ (pyLower s).data, isPySpace c = true := by
    intro c hc
    simp only [pyLower, String.data] at hc
    rcases List.mem_map.mp hc with ⟨c0, hc0, rfl⟩
    rw [toLower_of_space (h c0 hc0)]
    exact h c0 hc0
  have hdrop : (pyLower s).data.dropWhile isPySpace = [] :=
    List.dropWhile_eq_nil_iff.mpr fun c hc => hall c hc
  simp [pyStrip, hdrop]

/-- Appending the empty string is the identity. -/
theorem append_empty_str (s : String) : s ++ "" = s := by
  apply congrArg String.mk
  exact List.append_nil s.data

/-- The URL built for a whitespace-only query is the bare base address. -/
theorem urlFor_ws {s : String} (h : ∀ c ∈ s.data, isPySpace c = true) :
    urlFor s = BASE_URL := by
  rw [urlFor, normalize_ws_eq_empty h, append_empty_str]

/-! ### The claims -/

/-- C1, counterexample: a raw record that is missing `id` (and everything
after it) makes the whole run evaluate to an uncaught `KeyError` — an
unhandled crash of the process, not a reported, catchable failure. -/
theorem claim_C1_counterexample :
    ejecutar_pokedex netMissingId "pikachu" fs0 = .error (.keyError "id") := rfl

/-- C1 (amended): when the fetched record is truthy but the extractor raises
(as it does on any record missing a required nested key, with a `KeyError`
naming the first missing key in access order), the exception propagates out
of the orchestrator unhandled: the run's outcome is exactly that error. It is
still disjoint from the network-failure outcomes, which are caught inside the
fetcher and reported as messages. -/
theorem claim_C1 (net : String → NetResult) (s : String) (fs : FS)
    (datos : PyVal) (e : PyErr) (hs : s ≠ "")
    (hnet : net (urlFor s) = .response 200 datos)
    (ht : pyTruthy datos = true)
    (hex : extraer_informacion_relevante datos = .error e) :
    ejecutar_pokedex net s fs = .error e := by
  simp [ejecutar_pokedex, hs, obtener_datos_pokemon, hnet, ht, hex]

/-- C1, witness: the amended theorem applied to the concrete truncated
record. -/
theorem claim_C1_witness :
    pyTruthy rawMissingId = true ∧
    ejecutar_pokedex netMissingId "pikachu" fs0 = .error (.keyError "id") :=
  ⟨rfl, claim_C1 netMissingId "pikachu" fs0 rawMissingId (.keyError "id")
    (by decide) rfl rfl rfl⟩

/-- C2, counterexample: the whitespace-only input `" "` is truthy in Python,
so the emptiness check does not stop it: the run reaches the fetch stage and
issues a network request (to the bare base URL, since the name strips to
nothing) instead of terminating after reading input. -/
theorem claim_C2_counterexample :
    ejecutar_pokedex net404 " " fs0 = .ok ⟨fs0, [.notFound " "], [BASE_URL]⟩ ∧
    ([BASE_URL] : List String) ≠ [] := by
  exact ⟨rfl, by decide⟩

/-- C2 (amended): only the exactly-empty input line terminates the run after
the read-input stage, with the emptiness message and no network request; a
whitespace-only nonempty line instead proceeds to the fetch stage and
requests the bare base URL. -/
theorem claim_C2 (net : String → NetResult) (fs : FS) :
    ejecutar_pokedex net "" fs = .ok ⟨fs, [.emptyName], []⟩ ∧
    ∀ s, s ≠ "" → (∀ c ∈ s.data, isPySpace c = true) →
      ∀ out, ejecutar_pokedex net s fs = .ok out → out.reqs = [BASE_URL] := by
  constructor
  · simp [ejecutar_pokedex]
  · intro s hs hws out hout
    rw [ejecutar_pokedex, if_neg hs] at hout
    rw [← urlFor_ws hws]
    dsimp only at hout
    split at hout
    · split at hout
      · split at hout
        · exact absurd hout (by simp)
        · cases hout
          rfl
      · cases hout
        rfl
    · cases hout
      rfl

/-- C2, witness: the amended theorem at the empty input and at the
whitespace-only input `" "`. -/
theorem claim_C2_witness :
    ejecutar_pokedex net404 "" fs0 = .ok ⟨fs0, [.emptyName], []⟩ ∧
    RunOut.reqs ⟨fs0, [.notFound " "], [BASE_URL]⟩ = [BASE_URL] :=
  ⟨(claim_C2 net404 fs0).1,
   (claim_C2 net404 fs0).2 " " (by decide) (by decide) _ rfl⟩

/-- C3: the fetcher classifies every outcome of the single request
exhaustively: 200 returns the parsed body with no message; 404 reports that
the entity does not exist (a message distinct by construction from the
service-error and connection-error messages) and returns `None`; any other
status reports that status and returns `None`; a connection-level failure
reports its detail — distinct from the not-found report — and returns
`None`. -/
theorem claim_C3 (net : String → NetResult) (nombre : String) :
    (∀ body, net (urlFor nombre) = .response 200 body →
       obtener_datos_pokemon net nombre = (some body, [])) ∧
    (∀ body, net (urlFor nombre) = .response 404 body →
       obtener_datos_pokemon net nombre = (none, [.notFound nombre])) ∧
    (∀ status body, net (urlFor nombre) = .response status body →
       status ≠ 200 → status ≠ 404 →
       obtener_datos_pokemon net nombre = (none, [.serviceError status])) ∧
    (∀ detail, net (urlFor nombre) = .connError detail →
       obtener_datos_pokemon net nombre = (none, [.connectionError detail])) := by
  refine ⟨?_, ?_, ?_, ?_⟩
  · intro body h
    simp [obtener_datos_pokemon, h]
  · intro body h
    simp [obtener_datos_pokemon, h]
  · intro status body h h200 h404
    simp [obtener_datos_pokemon, h, h200, h404]
  · intro detail h
    simp [obtener_datos_pokemon, h]

/-- C3, witness: each of the four classifications observed on a concrete
service oracle. -/
theorem claim_C3_witness :
    obtener_datos_pokemon netPikachu "pikachu" = (some rawPikachu, []) ∧
    obtener_datos_pokemon net404 "abc" = (none, [.notFound "abc"]) ∧
    obtener_datos_pokemon net500 "abc" = (none, [.serviceError 500]) ∧
    obtener_datos_pokemon netConnFail "abc" = (none, [.connectionError "no internet"]) :=
  ⟨(claim_C3 netPikachu "pikachu").1 rawPikachu rfl,
   (claim_C3 net404 "abc").2.1 .null rfl,
   (claim_C3 net500 "abc").2.2.1 500 .null rfl (by decide) (by decide),
   (claim_C3 netConnFail "abc").2.2.2 "no internet" rfl⟩

/-- C9: two queries that normalize (lowercase, strip) to the same name are
fetched through the same URL: the returned value is always the same, and on
a 200 response the entire fetch outcome (value and messages) coincides — in
particular `" PIKACHU "` behaves exactly like `pikachu`. -/
theorem claim_C9 (net : String → NetResult) (s t : String)
    (hnorm : pyStrip (pyLower s) = pyStrip (pyLower t)) :
    (obtener_datos_pokemon net s).1 = (obtener_datos_pokemon net t).1 ∧
    (∀ body, net (urlFor s) = .response 200 body →
       obtener_datos_pokemon net s = obtener_datos_pokemon net t) := by
  have hurl : urlFor s = urlFor t := by
    simp [urlFor, hnorm]
  constructor
  · simp only [obtener_datos_pokemon, hurl]
    cases net (urlFor t) with
    | response status body =>
        by_cases h200 : status = 200
        · simp [h200]
        · by_cases h404 : status = 404 <;> simp [h200, h404]
    | connError d => simp
  · intro body hb
    rw [hurl] at hb
    simp [obtener_datos_pokemon, hurl, hb]

/-- C9, witness: the uppercase padded query and the canonical one produce the
same outcome against a service that knows the canonical name. -/
theorem claim_C9_witness :
    pyStrip (pyLower " PIKACHU ") = pyStrip (pyLower "pikachu") ∧
    obtener_datos_pokemon netPikachu " PIKACHU "
      = obtener_datos_pokemon netPikachu "pikachu" :=
  ⟨by decide,
   (claim_C9 netPikachu " PIKACHU " "pikachu" (by decide)).2 rawPikachu rfl⟩

/-- C10: after a 200 response the pipeline's continuation is gated on Python
truthiness of the parsed body: a falsy body (such as the empty JSON object,
shown falsy in the last conjunct) leaves the filesystem untouched — no
extraction, no display, no file — exactly like a fetch failure, while a
truthy body whose extraction succeeds leads to display and persistence. -/
theorem claim_C10 (net : String → NetResult) (s : String) (fs : FS) (body : PyVal)
    (hs : s ≠ "") (hnet : net (urlFor s) = .response 200 body) :
    (pyTruthy body = false →
       ejecutar_pokedex net s fs = .ok ⟨fs, [], [urlFor s]⟩) ∧
    (∀ info, pyTruthy body = true →
       extraer_informacion_relevante body = .ok info →
       ejecutar_pokedex net s fs
         = .ok ⟨(guardar_informacion_json info fs).1,
                mostrar_datos_pokemon info :: (guardar_informacion_json info fs).2,
                [urlFor s]⟩) ∧
    pyTruthy (.obj []) = false := by
  refine ⟨?_, ?_, rfl⟩
  · intro hf
    simp [ejecutar_pokedex, hs, obtener_datos_pokemon, hnet, hf]
  · intro info ht hex
    simp [ejecutar_pokedex, hs, obtener_datos_pokemon, hnet, ht, hex]

/-- C10, witness: a 200 response carrying `{}` writes nothing and changes
nothing. -/
theorem claim_C10_witness :
    ejecutar_pokedex netEmptyObj "pikachu" fs0
      = .ok ⟨fs0, [], [urlFor "pikachu"]⟩ ∧
    pyTruthy (.obj []) = false :=
  ⟨(claim_C10 netEmptyObj "pikachu" fs0 (.obj []) (by decide) rfl).1 rfl,
   (claim_C10 netEmptyObj "pikachu" fs0 (.obj []) (by decide) rfl).2.2⟩

/-- C4: on a raw record with a moves list of length `n`, the extracted
top-moves list is exactly the first five source entries in source order (no
sorting), each with hyphens replaced by spaces (and the code's capitalization
applied), so its length is `min 5 n`. -/
theorem claim_C4 (name : String) (id weight height : Int) (sprite : Option String)
    (types abilities moves : List String) (info : Info)
    (h : extraer_informacion_relevante
           (mkRaw name id weight height sprite types abilities moves) = .ok info) :
    info.movimientos_principales
        = (moves.take 5).map (fun m => pyCapitalize (pyReplaceDash m)) ∧
    info.movimientos_principales.length = min 5 moves.length := by
  rw [extraer_mkRaw] at h
  cases h
  refine ⟨rfl, ?_⟩
  rw [List.length_map, List.length_take]

/-- C4, witness: the concrete scenario record with seven source moves keeps
the first five, transformed, in order. -/
theorem claim_C4_witness :
    infoBulba.movimientos_principales
        = (movesB.take 5).map (fun m => pyCapitalize (pyReplaceDash m)) ∧
    infoBulba.movimientos_principales.length = min 5 movesB.length :=
  claim_C4 "bulbasaur" 1 69 7 none ["grass", "poison"] ["overgrow"] movesB
    infoBulba (by rfl)

/-- C5: for nonnegative integer source weight and height, the extracted
record's weight and height are exactly the source values divided by 10 (the
division being exact in the rational model of Python floats). -/
theorem claim_C5 (name : String) (id weight height : Int) (sprite : Option String)
    (types abilities moves : List String) (info : Info)
    (hw : 0 ≤ weight) (hh : 0 ≤ height)
    (h : extraer_informacion_relevante
           (mkRaw name id weight height sprite types abilities moves) = .ok info) :
    info.peso_kg = (weight : ℚ) / 10 ∧ info.altura_m = (height : ℚ) / 10 := by
  rw [extraer_mkRaw] at h
  cases h
  exact ⟨rfl, rfl⟩

/-- C5, witness: the concrete scenario's `69` and `7` become `6.9` and
`0.7` exactly. -/
theorem claim_C5_witness :
    (0 : Int) ≤ 69 ∧ infoBulba.peso_kg = (69 : ℚ) / 10 ∧
      infoBulba.altura_m = (7 : ℚ) / 10 :=
  ⟨by decide,
   claim_C5 "bulbasaur" 1 69 7 none ["grass", "poison"] ["overgrow"] movesB
     infoBulba (by decide) (by decide) (by rfl)⟩

/-- C6: persisting an extracted record writes the serialized record (the
indented, non-ASCII-preserving dump of its eight keys in insertion order) to
`pokedex/<name lowercased, spaces to underscores>.json`, reports that path,
creates the output directory when absent, and leaves the directory list
untouched when it already exists. -/
theorem claim_C6 (info : Info) (fs : FS) :
    ((guardar_informacion_json info fs).1).lookupFile
        (POKEDEX_FOLDER ++ "/" ++ (pySpaceToUnderscore (pyLower info.nombre) ++ ".json"))
      = some (infoContent info) ∧
    POKEDEX_FOLDER ∈ ((guardar_informacion_json info fs).1).dirs ∧
    (POKEDEX_FOLDER ∈ fs.dirs → ((guardar_informacion_json info fs).1).dirs = fs.dirs) ∧
    (guardar_informacion_json info fs).2
      = [.saved (POKEDEX_FOLDER ++ "/"
            ++ (pySpaceToUnderscore (pyLower info.nombre) ++ ".json"))] ∧
    objKeys (infoToJson info)
      = ["nombre", "id", "peso_kg", "altura_m", "imagen_frontal_url",
         "tipos", "habilidades", "movimientos_principales"] := by
  refine ⟨?_, ?_, ?_, rfl, rfl⟩
  · simp [guardar_informacion_json, FS.writeFile, FS.lookupFile, List.lookup]
  · by_cases hd : POKEDEX_FOLDER ∈ fs.dirs <;>
      simp [guardar_informacion_json, FS.makedirs, FS.writeFile, hd]
  · intro hd
    simp [guardar_informacion_json, FS.makedirs, FS.writeFile, hd]

/-- C6, witness: the concrete scenario record lands in
`pokedex/bulbasaur.json`, and an already-existing output directory is left
as is. -/
theorem claim_C6_witness :
    ((guardar_informacion_json infoBulba fsD).1).lookupFile "pokedex/bulbasaur.json"
      = some (infoContent infoBulba) ∧
    ((guardar_informacion_json infoBulba fsD).1).dirs = fsD.dirs :=
  ⟨(claim_C6 infoBulba fsD).1, (claim_C6 infoBulba fsD).2.2.1 (by decide)⟩

/-- C7: persisting the same record twice yields byte-identical contents at
the target path after each call, and a single call already overwrites
whatever the path held before, unconditionally (the second conjunct holds
for an arbitrary starting filesystem). -/
theorem claim_C7 (info : Info) (fs : FS) :
    ((guardar_informacion_json info ((guardar_informacion_json info fs).1)).1).lookupFile
        (POKEDEX_FOLDER ++ "/" ++ (pySpaceToUnderscore (pyLower info.nombre) ++ ".json"))
      = ((guardar_informacion_json info fs).1).lookupFile
        (POKEDEX_FOLDER ++ "/" ++ (pySpaceToUnderscore (pyLower info.nombre) ++ ".json")) ∧
    ((guardar_informacion_json info fs).1).lookupFile
        (POKEDEX_FOLDER ++ "/" ++ (pySpaceToUnderscore (pyLower info.nombre) ++ ".json"))
      = some (infoContent info) := by
  constructor <;>
    simp [guardar_informacion_json, FS.writeFile, FS.lookupFile, List.lookup]

/-! ### Round-trip, string layer -/

/-- A hexadecimal digit character reads back as its value. -/
theorem hexNum_hexDig {k : Nat} (h : k < 16) : hexNum (hexDig k) = some k := by
  interval_cases k <;> decide

/-- Reading one escaped character undoes the escaping. -/
theorem parseStrBody_esc (c : Char) (t : List Char) :
    parseStrBody (escChar c ++ t) = (parseStrBody t).map fun p => (c :: p.1, p.2) := by
  by_cases h1 : c = qmark
  · subst h1
    rw [show escChar qmark = [bslash, qmark] from by decide, parseStrBody.eq_def]
    simp [qmark, bslash, unescChar]
  by_cases h2 : c = bslash
  · subst h2
    rw [show escChar bslash = [bslash, bslash] from by decide, parseStrBody.eq_def]
    simp [qmark, bslash, unescChar]
  by_cases h3 : c = '\n'
  · subst h3
    rw [show escChar '\n' = [bslash, 'n'] from by decide, parseStrBody.eq_def]
    simp [qmark, bslash, unescChar]
  by_cases h4 : c = '\t'
  · subst h4
    rw [show escChar '\t' = [bslash, 't'] from by decide, parseStrBody.eq_def]
    simp [qmark, bslash, unescChar]
  by_cases h5 : c = '\r'
  · subst h5
    rw [show escChar '\r' = [bslash, 'r'] from by decide, parseStrBody.eq_def]
    simp [qmark, bslash, unescChar]
  by_cases h6 : c.toNat = 8
  · have hc : c = Char.ofNat 8 := by rw [← Char.ofNat_toNat c, h6]
    subst hc
    rw [show escChar (Char.ofNat 8) = [bslash, 'b'] from by decide, parseStrBody.eq_def]
    simp [qmark, bslash, unescChar]
  by_cases h7 : c.toNat = 12
  · have hc : c = Char.ofNat 12 := by rw [← Char.ofNat_toNat c, h7]
    subst hc
    rw [show escChar (Char.ofNat 12) = [bslash, 'f'] from by decide, parseStrBody.eq_def]
    simp [qmark, bslash, unescChar]
  by_cases h8 : c.toNat < 32
  · have hesc : escChar c
        = [bslash, 'u', '0', '0', hexDig (c.toNat / 16), hexDig (c.toNat % 16)] := by
      simp only [escChar]
      rw [if_neg h1, if_neg h2, if_neg h3, if_neg h4, if_neg h5, if_neg h6,
          if_neg h7, if_pos h8]
    have hhi : hexNum (hexDig (c.toNat / 16)) = some (c.toNat / 16) :=
      hexNum_hexDig (by omega)
    have hlo : hexNum (hexDig (c.toNat % 16)) = some (c.toNat % 16) :=
      hexNum_hexDig (by omega)
    rw [hesc, parseStrBody.eq_def]
    simp only [qmark, bslash]
    simp [show hexNum '0' = some 0 from by decide, hhi, hlo]
    rw [show c.toNat / 16 * 16 + c.toNat % 16 = c.toNat from by omega, Char.ofNat_toNat]
  · have hesc : escChar c = [c] := by
      simp only [escChar]
      rw [if_neg h1, if_neg h2, if_neg h3, if_neg h4, if_neg h5, if_neg h6,
          if_neg h7, if_neg h8]
    rw [hesc, List.singleton_append, parseStrBody.eq_def]
    simp [h1, h2]

/-- Reading an escaped character run recovers it, stopping at the closing
quote. -/
theorem parseStrBody_flat (l : List Char) (rest : List Char) :
    parseStrBody ((l.map escChar).flatten ++ qmark :: rest) = some (l, rest) := by
  induction l with
  | nil =>
      rw [List.map_nil, List.flatten_nil, List.nil_append, parseStrBody.eq_def]
      simp [qmark]
  | cons c cs ih =>
      rw [List.map_cons, List.flatten_cons, List.append_assoc, parseStrBody_esc, ih]
      rfl

/-- Reading a rendered string literal recovers the string. -/
theorem parseVal_str (f : Nat) (hf : 1 ≤ f) (s : String) (rest : List Char) :
    parseVal f (strChars s ++ rest) = some (.str s, rest) := by
  obtain ⟨g, rfl⟩ : ∃ g, f = g + 1 := ⟨f - 1, by omega⟩
  have hskip : jsSkip (strChars s ++ rest)
      = qmark :: (((s.data.map escChar).flatten ++ [qmark]) ++ rest) := by
    rw [strChars, List.cons_append, jsSkip.eq_def]
    simp [qmark, isJsWs]
  have hbody : ((s.data.map escChar).flatten ++ [qmark]) ++ rest
      = (s.data.map escChar).flatten ++ qmark :: rest := by
    rw [List.append_assoc, List.singleton_append]
  rw [parseVal.eq_def]
  dsimp only
  rw [hskip]
  dsimp only
  rw [if_pos rfl, hbody, parseStrBody_flat]
  cases s
  rfl

/-! ### Round-trip, number layer -/

/-- One recursion step of the decimal rendering. -/
theorem natDigits_unfold (n : Nat) :
    natDigits n = if n < 10 then [Char.ofNat (48 + n)]
      else natDigits (n / 10) ++ [Char.ofNat (48 + n % 10)] := by
  rw [natDigits.eq_def]
  split <;> simp_all

/-- The decimal digit character of `k < 10` carries the value `k`. -/
theorem digitChar_toNat {k : Nat} (h : k < 10) : (Char.ofNat (48 + k)).toNat = 48 + k := by
  interval_cases k <;> decide

/-- The decimal digit character of `k < 10` is a digit. -/
theorem isDig_digitChar {k : Nat} (h : k < 10) : isDig (Char.ofNat (48 + k)) = true := by
  interval_cases k <;> decide

/-- Every character of a decimal rendering is a digit. -/
theorem natDigits_digits (n : Nat) : ∀ c ∈ natDigits n, isDig c = true := by
  induction n using Nat.strong_induction_on with
  | _ n ih =>
      rw [natDigits_unfold]
      by_cases h : n < 10
      · simp only [if_pos h, List.mem_singleton]
        rintro c rfl
        exact isDig_digitChar h
      · simp only [if_neg h, List.mem_append, List.mem_singleton]
        rintro c (hc | rfl)
        · exact ih (n / 10) (Nat.div_lt_self (by omega) (by omega)) c hc
        · exact isDig_digitChar (Nat.mod_lt _ (by omega))

/-- A decimal rendering is never empty. -/
theorem natDigits_ne_nil (n : Nat) : natDigits n ≠ [] := by
  rw [natDigits_unfold]
  by_cases h : n < 10 <;> simp [h]

/-- Reading back a decimal rendering recovers the number. -/
theorem digsNat_natDigits (n : Nat) : digsNat (natDigits n) = n := by
  induction n using Nat.strong_induction_on with
  | _ n ih =>
      rw [natDigits_unfold]
      by_cases h : n < 10
      · simp only [if_pos h, digsNat, List.foldl_cons, List.foldl_nil]
        rw [digitChar_toNat h]
        omega
      · simp only [if_neg h, digsNat, List.foldl_append, List.foldl_cons, List.foldl_nil]
        have hq := ih (n / 10) (Nat.div_lt_self (by omega) (by omega))
        rw [digsNat] at hq
        rw [hq, digitChar_toNat (Nat.mod_lt _ (by omega))]
        omega

/-- The digit scanner consumes nothing from a non-digit-headed input. -/
theorem takeDigs_stop {cs : List Char} (h : noDigHead cs = true) :
    takeDigs cs = ([], cs) := by
  cases cs with
  | nil => rfl
  | cons c t =>
      simp only [noDigHead, Bool.not_eq_true'] at h
      simp [takeDigs, h]

/-- The digit scanner consumes exactly a digit run, stopping after it. -/
theorem takeDigs_run (ds : List Char) (hds : ∀ c ∈ ds, isDig c = true)
    (rest : List Char) (hrest : noDigHead rest = true) :
    takeDigs (ds ++ rest) = (ds, rest) := by
  induction ds with
  | nil => simpa using takeDigs_stop hrest
  | cons c t ih =>
      have hc : isDig c = true := hds c (by simp)
      have ht := ih fun x hx => hds x (by simp [hx])
      simp [takeDigs, hc, ht]

/-- Reading an unsigned decimal integer rendering recovers it. -/
theorem parseUNum_int (neg : Bool) (n : Nat) (rest : List Char)
    (h1 : noDigHead rest = true) (h2 : noDotHead rest = true) :
    parseUNum neg (natDigits n ++ rest)
      = some (.int ((if neg then -1 else 1) * (n : ℤ)), rest) := by
  simp only [parseUNum]
  rw [takeDigs_run _ (natDigits_digits n) _ h1]
  dsimp only
  rw [if_neg (by simpa using natDigits_ne_nil n)]
  cases rest with
  | nil => simp [digsNat_natDigits]
  | cons c r =>
      have h2' : ¬c = '.' := by
        simpa [noDotHead] using h2
      dsimp only
      rw [if_neg h2']
      simp [digsNat_natDigits]

/-- The digits-and-dot sum identity behind the tenth rendering. -/
theorem tenth_sum (w : Nat) :
    ((w / 10 : Nat) : ℚ) + ((w % 10 : Nat) : ℚ) / (10 : ℚ) ^ (1 : Nat) = (w : ℚ) / 10 := by
  have h : (10 : ℚ) * ((w / 10 : Nat) : ℚ) + ((w % 10 : Nat) : ℚ) = (w : ℚ) := by
    exact_mod_cast congrArg (Nat.cast : Nat → ℚ) (Nat.div_add_mod w 10)
  rw [pow_one]
  field_simp
  linarith

/-- Reading an unsigned tenth rendering recovers the value. -/
theorem parseUNum_tenth (neg : Bool) (w : Nat) (rest : List Char)
    (h1 : noDigHead rest = true) :
    parseUNum neg (tenthChars w ++ rest)
      = some (.float ((if neg then -1 else 1) * ((w : ℚ) / 10)), rest) := by
  have hshape : tenthChars w ++ rest
      = natDigits (w / 10) ++ ('.' :: (Char.ofNat (48 + w % 10) :: rest)) := by
    rw [tenthChars]
    simp
  have hfrac : takeDigs (Char.ofNat (48 + w % 10) :: rest)
      = ([Char.ofNat (48 + w % 10)], rest) := by
    have hmem : ∀ c ∈ [Char.ofNat (48 + w % 10)], isDig c = true := by
      rintro c hc
      rw [List.mem_singleton] at hc
      subst hc
      exact isDig_digitChar (by omega)
    simpa using takeDigs_run [Char.ofNat (48 + w % 10)] hmem rest h1
  have hd : digsNat [Char.ofNat (48 + w % 10)] = w % 10 := by
    have := digitChar_toNat (show w % 10 < 10 by omega)
    simp [digsNat, this]
  rw [hshape]
  simp only [parseUNum]
  rw [takeDigs_run _ (natDigits_digits _)
        ('.' :: (Char.ofNat (48 + w % 10) :: rest)) rfl]
  try dsimp only
  rw [if_neg (by simpa using natDigits_ne_nil (w / 10))]
  try dsimp only
  rw [if_pos rfl, hfrac]
  try dsimp only
  rw [if_neg (by simp)]
  rw [hd, digsNat_natDigits]
  simp only [List.length_singleton]
  rw [tenth_sum]

/-- A digit is not a minus sign. -/
theorem dig_ne_minus {c : Char} (h : isDig c = true) : ¬c = '-' := by
  rintro rfl
  exact absurd h (by decide)

/-- Reading a rendered Python integer recovers it. -/
theorem parseNum_int (i : ℤ) (rest : List Char)
    (h1 : noDigHead rest = true) (h2 : noDotHead rest = true) :
    parseNum (intChars i ++ rest) = some (.int i, rest) := by
  by_cases hi : i < 0
  · rw [intChars, if_pos hi, List.cons_append, parseNum, if_pos rfl,
        parseUNum_int true i.natAbs rest h1 h2]
    rw [show (if (true : Bool) then (-1 : ℤ) else 1) = -1 from rfl]
    rw [show (-1 : ℤ) * (i.natAbs : ℤ) = i from by omega]
  · rw [intChars, if_neg hi]
    rcases hnd : natDigits i.natAbs with _ | ⟨d, ds⟩
    · exact absurd hnd (natDigits_ne_nil _)
    · have hd : isDig d = true := by
        apply natDigits_digits i.natAbs
        rw [hnd]
        exact List.mem_cons_self ..
      rw [List.cons_append, parseNum, if_neg (dig_ne_minus hd), ← List.cons_append,
          ← hnd, parseUNum_int false i.natAbs rest h1 h2]
      rw [show (if (false : Bool) then (-1 : ℤ) else 1) = 1 from rfl]
      rw [show (1 : ℤ) * (i.natAbs : ℤ) = i from by omega]

/-- Reading a rendered Python float recovers it; exact for the tenth-valued
floats this program produces. -/
theorem parseNum_float (q : ℚ) (hq : (q * 10).den = 1) (rest : List Char)
    (h1 : noDigHead rest = true) :
    parseNum (floatChars q ++ rest) = some (.float q, rest) := by
  by_cases hq0 : q < 0
  · have hw : (((-(q * 10)).num.toNat : ℕ) : ℚ) = -(q * 10) := by
      have hnn : 0 ≤ (-(q * 10)).num := Rat.num_nonneg.mpr (by nlinarith)
      calc (((-(q * 10)).num.toNat : ℕ) : ℚ)
          = (((-(q * 10)).num : ℤ) : ℚ) := by exact_mod_cast Int.toNat_of_nonneg hnn
        _ = -(q * 10) := Rat.coe_int_num_of_den_eq_one (by rw [Rat.neg_den, hq])
    rw [floatChars, if_pos hq0, List.cons_append, parseNum, if_pos rfl,
        parseUNum_tenth true _ rest h1]
    rw [show (if (true : Bool) then (-1 : ℚ) else 1) = -1 from rfl]
    rw [show (-1 : ℚ) * ((((-(q * 10)).num.toNat : ℕ) : ℚ) / 10) = q from by
      rw [hw]; ring]
  · have hw : ((((q * 10)).num.toNat : ℕ) : ℚ) = q * 10 := by
      have hnn : 0 ≤ (q * 10).num := Rat.num_nonneg.mpr (by nlinarith [not_lt.mp hq0])
      calc ((((q * 10)).num.toNat : ℕ) : ℚ)
          = ((((q * 10)).num : ℤ) : ℚ) := by exact_mod_cast Int.toNat_of_nonneg hnn
        _ = q * 10 := Rat.coe_int_num_of_den_eq_one hq
    rw [floatChars, if_neg hq0]
    rcases hnd : natDigits ((q * 10).num.toNat / 10) with _ | ⟨d, ds⟩
    · exact absurd hnd (natDigits_ne_nil _)
    · have hd : isDig d = true := by
        apply natDigits_digits
        rw [hnd]
        exact List.mem_cons_self ..
      have hshape : tenthChars (q * 10).num.toNat ++ rest
          = d :: (ds ++ ('.' :: (Char.ofNat (48 + (q * 10).num.toNat % 10) :: rest))) := by
        rw [tenthChars]
        simp [hnd]
      rw [hshape, parseNum, if_neg (dig_ne_minus hd), ← hshape,
          parseUNum_tenth false _ rest h1]
      rw [show (if (false : Bool) then (-1 : ℚ) else 1) = 1 from rfl]
      rw [show (1 : ℚ) * ((((q * 10).num.toNat : ℕ) : ℚ) / 10) = q from by
        rw [hw]; ring]

/-! ### Round-trip, value dispatch and whitespace -/

/-- Skipping whitespace is the identity on input headed by a non-whitespace
character. -/
theorem jsSkip_cons_not {c : Char} (t : List Char) (h : isJsWs c = false) :
    jsSkip (c :: t) = c :: t := by
  rw [jsSkip.eq_def]
  simp [h]

/-- A digit character is none of the reader's special dispatch characters. -/
theorem dig_not_special {c : Char} (h : isDig c = true) :
    isJsWs c = false ∧ ¬c = qmark ∧ ¬c = '[' ∧ ¬c = obrace ∧ ¬c = 'n' := by
  refine ⟨?_, ?_, ?_, ?_, ?_⟩
  · simp only [isJsWs, Bool.or_eq_false_iff, decide_eq_false_iff_not]
    refine ⟨⟨⟨?_, ?_⟩, ?_⟩, ?_⟩ <;> (rintro rfl; exact absurd h (by decide))
  all_goals (rintro rfl; exact absurd h (by decide))

/-- The reader's behavior depends on the input only through its
whitespace-skipped form. -/
theorem parseVal_ws (f : Nat) (cs cs' : List Char) (h : jsSkip cs = jsSkip cs') :
    parseVal f cs = parseVal f cs' := by
  cases f with
  | zero => rfl
  | succ g =>
      rw [parseVal.eq_def]
      conv_rhs => rw [parseVal.eq_def]
      dsimp only
      rw [h]

/-- The element reader also sees only the whitespace-skipped input. -/
theorem parseItems_ws (f : Nat) (cs cs' : List Char) (h : jsSkip cs = jsSkip cs') :
    parseItems f cs = parseItems f cs' := by
  cases f with
  | zero => rfl
  | succ g =>
      rw [parseItems.eq_def]
      conv_rhs => rw [parseItems.eq_def]
      dsimp only
      rw [parseVal_ws g _ _ h]

/-- The member reader also sees only the whitespace-skipped input. -/
theorem parseMems_ws (f : Nat) (cs cs' : List Char) (h : jsSkip cs = jsSkip cs') :
    parseMems f cs = parseMems f cs' := by
  cases f with
  | zero => rfl
  | succ g =>
      rw [parseMems.eq_def]
      conv_rhs => rw [parseMems.eq_def]
      dsimp only
      rw [h]

/-- Reading a rendered `null` recovers it. -/
theorem parseVal_null (f : Nat) (hf : 1 ≤ f) (rest : List Char) :
    parseVal f (['n', 'u', 'l', 'l'] ++ rest) = some (.null, rest) := by
  obtain ⟨g, rfl⟩ : ∃ g, f = g + 1 := ⟨f - 1, by omega⟩
  rw [parseVal.eq_def]
  dsimp only
  rw [show jsSkip (['n', 'u', 'l', 'l'] ++ rest) = 'n' :: ('u' :: 'l' :: 'l' :: rest)
      from rfl]
  simp [qmark, obrace]

/-- Reading a rendered integer through the value reader recovers it. -/
theorem parseVal_int (f : Nat) (hf : 1 ≤ f) (i : ℤ) (rest : List Char)
    (h1 : noDigHead rest = true) (h2 : noDotHead rest = true) :
    parseVal f (intChars i ++ rest) = some (.int i, rest) := by
  obtain ⟨g, rfl⟩ : ∃ g, f = g + 1 := ⟨f - 1, by omega⟩
  by_cases hi : i < 0
  · have hsh : intChars i ++ rest = '-' :: (natDigits i.natAbs ++ rest) := by
      rw [intChars, if_pos hi, List.cons_append]
    rw [hsh, parseVal.eq_def]
    dsimp only
    rw [show jsSkip ('-' :: (natDigits i.natAbs ++ rest))
        = '-' :: (natDigits i.natAbs ++ rest) from rfl]
    simp only [qmark, obrace]
    rw [if_neg (by decide), if_neg (by decide), if_neg (by decide), if_neg (by decide),
        if_pos (by decide)]
    rw [← hsh, parseNum_int i rest h1 h2]
  · rcases hnd : natDigits i.natAbs with _ | ⟨d, ds⟩
    · exact absurd hnd (natDigits_ne_nil _)
    have hd : isDig d = true := by
      apply natDigits_digits i.natAbs
      rw [hnd]
      exact List.mem_cons_self ..
    obtain ⟨hws, hq, hbk, hob, hn⟩ := dig_not_special hd
    have hsh : intChars i ++ rest = d :: (ds ++ rest) := by
      rw [intChars, if_neg hi, hnd, List.cons_append]
    rw [hsh, parseVal.eq_def]
    dsimp only
    rw [show jsSkip (d :: (ds ++ rest)) = d :: (ds ++ rest) from by
      rw [jsSkip.eq_def]; simp [hws]]
    dsimp only
    rw [if_neg hq, if_neg hbk, if_neg hob, if_neg hn, if_pos (by simp [hd])]
    rw [← hsh, parseNum_int i rest h1 h2]

/-- Reading a rendered float through the value reader recovers it. -/
theorem parseVal_float (f : Nat) (hf : 1 ≤ f) (q : ℚ) (hq : (q * 10).den = 1)
    (rest : List Char) (h1 : noDigHead rest = true) :
    parseVal f (floatChars q ++ rest) = some (.float q, rest) := by
  obtain ⟨g, rfl⟩ : ∃ g, f = g + 1 := ⟨f - 1, by omega⟩
  by_cases hq0 : q < 0
  · have hsh : floatChars q ++ rest
        = '-' :: (tenthChars (-(q * 10)).num.toNat ++ rest) := by
      rw [floatChars, if_pos hq0, List.cons_append]
    rw [hsh, parseVal.eq_def]
    dsimp only
    rw [show jsSkip ('-' :: (tenthChars (-(q * 10)).num.toNat ++ rest))
        = '-' :: (tenthChars (-(q * 10)).num.toNat ++ rest) from rfl]
    simp only [qmark, obrace]
    rw [if_neg (by decide), if_neg (by decide), if_neg (by decide), if_neg (by decide),
        if_pos (by decide)]
    rw [← hsh, parseNum_float q hq rest h1]
  · rcases hnd : natDigits ((q * 10).num.toNat / 10) with _ | ⟨d, ds⟩
    · exact absurd hnd (natDigits_ne_nil _)
    have hd : isDig d = true := by
      apply natDigits_digits
      rw [hnd]
      exact List.mem_cons_self ..
    obtain ⟨hws, hqm, hbk, hob, hn⟩ := dig_not_special hd
    have hsh : floatChars q ++ rest
        = d :: ((ds ++ ('.' :: (Char.ofNat (48 + (q * 10).num.toNat % 10) :: []))) ++ rest) := by
      rw [floatChars, if_neg hq0, tenthChars, hnd]
      simp
    rw [hsh, parseVal.eq_def]
    dsimp only
    rw [show jsSkip (d :: ((ds ++ ('.' :: (Char.ofNat (48 + (q * 10).num.toNat % 10) :: []))) ++ rest))
        = d :: ((ds ++ ('.' :: (Char.ofNat (48 + (q * 10).num.toNat % 10) :: []))) ++ rest) from by
      rw [jsSkip.eq_def]; simp [hws]]
    dsimp only
    rw [if_neg hqm, if_neg hbk, if_neg hob, if_neg hn, if_pos (by simp [hd])]
    rw [← hsh, parseNum_float q hq rest h1]

/-- Reading a rendered string-or-null recovers it. -/
theorem parseVal_optStr (f : Nat) (hf : 1 ≤ f) (o : Option String) (rest : List Char) :
    parseVal f (optStrChars o ++ rest)
      = some (match o with | none => .null | some s => .str s, rest) := by
  cases o with
  | none => exact parseVal_null f hf rest
  | some s => exact parseVal_str f hf s rest

/-! ### Round-trip, arrays and objects -/

/-- Reading the laid-out elements of a nonempty string list recovers them,
consuming through the closing bracket. -/
theorem parseItems_strs (ss : List String) : ∀ (s : String) (rest : List Char) (f : Nat),
    ss.length + 2 ≤ f →
    parseItems f (strItemsChars s ss ++ '\n' :: (ind4 ++ (']' :: rest)))
      = some ((s :: ss).map PyVal.str, rest) := by
  induction ss with
  | nil =>
      intro s rest f hf
      obtain ⟨g, rfl⟩ : ∃ g, f = g + 1 := ⟨f - 1, by omega⟩
      rw [parseItems.eq_def]
      dsimp only
      rw [strItemsChars, parseVal_str g (by omega) s ('\n' :: (ind4 ++ (']' :: rest)))]
      dsimp only
      rw [show jsSkip ('\n' :: (ind4 ++ (']' :: rest))) = ']' :: rest from rfl]
      dsimp only
      rw [if_neg (by decide), if_pos rfl]
      rfl
  | cons t ts ih =>
      intro s rest f hf
      obtain ⟨g, rfl⟩ : ∃ g, f = g + 1 := ⟨f - 1, by omega⟩
      rw [parseItems.eq_def]
      dsimp only
      have hsh : strItemsChars s (t :: ts) ++ '\n' :: (ind4 ++ (']' :: rest))
          = strChars s ++ (',' :: '\n' :: (ind8 ++ (strItemsChars t ts
              ++ '\n' :: (ind4 ++ (']' :: rest))))) := by
        rw [strItemsChars]
        simp
      rw [hsh, parseVal_str g (by omega) s _]
      dsimp only
      rw [show jsSkip (',' :: '\n' :: (ind8 ++ (strItemsChars t ts
            ++ '\n' :: (ind4 ++ (']' :: rest)))))
          = ',' :: ('\n' :: (ind8 ++ (strItemsChars t ts
              ++ '\n' :: (ind4 ++ (']' :: rest))))) from rfl]
      dsimp only
      rw [if_pos rfl]
      rw [parseItems_ws g ('\n' :: (ind8 ++ (strItemsChars t ts
              ++ '\n' :: (ind4 ++ (']' :: rest)))))
            (strItemsChars t ts ++ '\n' :: (ind4 ++ (']' :: rest))) rfl]
      rw [ih t rest g (by simpa using Nat.le_of_succ_le_succ hf)]
      rfl

/-- Reading a laid-out string list recovers it. -/
theorem parseVal_strList (f : Nat) (l : List String) (rest : List Char)
    (hf : l.length + 3 ≤ f) :
    parseVal f (strListChars l ++ rest) = some (.arr (l.map PyVal.str), rest) := by
  obtain ⟨g, rfl⟩ : ∃ g, f = g + 1 := ⟨f - 1, by omega⟩
  cases l with
  | nil =>
      rw [strListChars, parseVal.eq_def]
      dsimp only
      rw [show jsSkip (['[', ']'] ++ rest) = '[' :: (']' :: rest) from rfl]
      dsimp only
      rw [if_neg (by decide), if_pos rfl,
          show jsSkip (']' :: rest) = ']' :: rest from rfl]
      rfl
  | cons s ss =>
      have hsh : strListChars (s :: ss) ++ rest
          = '[' :: ('\n' :: (ind8 ++ (strItemsChars s ss
              ++ '\n' :: (ind4 ++ (']' :: rest))))) := by
        rw [strListChars]
        simp [ind4]
      rw [hsh, parseVal.eq_def]
      dsimp only
      rw [show jsSkip ('[' :: ('\n' :: (ind8 ++ (strItemsChars s ss
            ++ '\n' :: (ind4 ++ (']' :: rest))))))
          = '[' :: ('\n' :: (ind8 ++ (strItemsChars s ss
              ++ '\n' :: (ind4 ++ (']' :: rest))))) from rfl]
      dsimp only
      rw [if_neg (by decide), if_pos rfl]
      have hskip2 : jsSkip ('\n' :: (ind8 ++ (strItemsChars s ss
            ++ '\n' :: (ind4 ++ (']' :: rest)))))
          = strItemsChars s ss ++ '\n' :: (ind4 ++ (']' :: rest)) := by
        rw [show jsSkip ('\n' :: (ind8 ++ (strItemsChars s ss
              ++ '\n' :: (ind4 ++ (']' :: rest)))))
            = jsSkip (strItemsChars s ss ++ '\n' :: (ind4 ++ (']' :: rest))) from rfl]
        cases hsi : strItemsChars s ss with
        | nil =>
            exact absurd hsi (by rw [strItemsChars.eq_def]; cases ss <;> simp [strChars])
        | cons c cs =>
            have hc : c = qmark := by
              have hh : (strItemsChars s ss).head? = some qmark := by
                rw [strItemsChars.eq_def]
                cases ss <;> simp [strChars]
              rw [hsi] at hh
              simpa using hh
            subst hc
            rw [List.cons_append, jsSkip.eq_def]
            simp [qmark, isJsWs]
      rw [hskip2]
      rcases hsi : strItemsChars s ss with _ | ⟨c, cs⟩
      · exact absurd hsi (by rw [strItemsChars.eq_def]; cases ss <;> simp [strChars])
      have hc : c = qmark := by
        have hh : (strItemsChars s ss).head? = some qmark := by
          rw [strItemsChars.eq_def]
          cases ss <;> simp [strChars]
        rw [hsi] at hh
        simpa using hh
      subst hc
      rw [List.cons_append]
      rw [show (match (qmark :: (cs ++ ('\n' :: (ind4 ++ (']' :: rest))))) with
            | ']' :: r2 => some (PyVal.arr [], r2)
            | cs2 => Option.map (fun p => (PyVal.arr p.1, p.2)) (parseItems g cs2))
          = Option.map (fun p => (PyVal.arr p.1, p.2))
              (parseItems g (qmark :: (cs ++ ('\n' :: (ind4 ++ (']' :: rest)))))) from rfl]
      rw [← List.cons_append, ← hsi, parseItems_strs ss s rest g (by simp at hf ⊢; omega)]
      rfl

/-- Skipping whitespace before a member line lands on its quoted key. -/
theorem jsSkip_ind4_str (k : String) (X : List Char) :
    jsSkip (ind4 ++ (strChars k ++ X))
      = qmark :: (((k.data.map escChar).flatten ++ [qmark]) ++ X) := by
  rw [show jsSkip (ind4 ++ (strChars k ++ X)) = jsSkip (strChars k ++ X) from rfl]
  rw [strChars, List.cons_append, jsSkip.eq_def]
  simp [qmark, isJsWs]

/-- Reading the last member line of the record's object consumes through the
closing brace. -/
theorem parseMems_last (k : String) (vch : List Char) (v : PyVal) (tail : List Char)
    (bv : Nat)
    (hval : ∀ g, bv ≤ g → parseVal g (vch ++ '\n' :: (cbrace :: tail))
        = some (v, '\n' :: (cbrace :: tail))) :
    ∀ f, bv + 1 ≤ f →
      parseMems f (ind4 ++ (strChars k ++ (':' :: ' ' :: (vch ++ '\n' :: (cbrace :: tail)))))
        = some ([(k, v)], tail) := by
  intro f hf
  obtain ⟨g, rfl⟩ : ∃ g, f = g + 1 := ⟨f - 1, by omega⟩
  rw [parseMems.eq_def]
  dsimp only
  rw [jsSkip_ind4_str]
  dsimp only
  rw [if_pos rfl]
  rw [show ((k.data.map escChar).flatten ++ [qmark])
        ++ (':' :: ' ' :: (vch ++ '\n' :: (cbrace :: tail)))
      = (k.data.map escChar).flatten
        ++ qmark :: (':' :: ' ' :: (vch ++ '\n' :: (cbrace :: tail))) from by
    rw [List.append_assoc, List.singleton_append]]
  rw [parseStrBody_flat]
  dsimp only
  rw [show jsSkip (':' :: ' ' :: (vch ++ '\n' :: (cbrace :: tail)))
      = ':' :: (' ' :: (vch ++ '\n' :: (cbrace :: tail))) from rfl]
  dsimp only
  rw [if_pos rfl]
  rw [parseVal_ws g (' ' :: (vch ++ '\n' :: (cbrace :: tail)))
        (vch ++ '\n' :: (cbrace :: tail)) rfl]
  rw [hval g (by omega)]
  dsimp only
  rw [show jsSkip ('\n' :: (cbrace :: tail)) = cbrace :: tail from rfl]
  dsimp only
  rw [if_neg (by decide), if_pos rfl]

/-- Reading a non-final member line of the record's object continues with the
remaining members. -/
theorem parseMems_more (k : String) (vch : List Char) (v : PyVal)
    (more rest : List Char) (out : List (String × PyVal)) (bv bm : Nat)
    (hval : ∀ g, bv ≤ g → parseVal g (vch ++ ',' :: ('\n' :: more))
        = some (v, ',' :: ('\n' :: more)))
    (hmore : ∀ g, bm ≤ g → parseMems g more = some (out, rest)) :
    ∀ f, bv + bm + 1 ≤ f →
      parseMems f (ind4 ++ (strChars k ++ (':' :: ' ' :: (vch ++ ',' :: ('\n' :: more)))))
        = some ((k, v) :: out, rest) := by
  intro f hf
  obtain ⟨g, rfl⟩ : ∃ g, f = g + 1 := ⟨f - 1, by omega⟩
  rw [parseMems.eq_def]
  dsimp only
  rw [jsSkip_ind4_str]
  dsimp only
  rw [if_pos rfl]
  rw [show ((k.data.map escChar).flatten ++ [qmark])
        ++ (':' :: ' ' :: (vch ++ ',' :: ('\n' :: more)))
      = (k.data.map escChar).flatten
        ++ qmark :: (':' :: ' ' :: (vch ++ ',' :: ('\n' :: more))) from by
    rw [List.append_assoc, List.singleton_append]]
  rw [parseStrBody_flat]
  dsimp only
  rw [show jsSkip (':' :: ' ' :: (vch ++ ',' :: ('\n' :: more)))
      = ':' :: (' ' :: (vch ++ ',' :: ('\n' :: more))) from rfl]
  dsimp only
  rw [if_pos rfl]
  rw [parseVal_ws g (' ' :: (vch ++ ',' :: ('\n' :: more)))
        (vch ++ ',' :: ('\n' :: more)) rfl]
  rw [hval g (by omega)]
  dsimp only
  rw [show jsSkip (',' :: ('\n' :: more)) = ',' :: ('\n' :: more) from rfl]
  dsimp only
  rw [if_pos rfl]
  rw [parseMems_ws g ('\n' :: more) more rfl]
  rw [hmore g (by omega)]
  cases k
  rfl

/-! ### Round-trip, assembly -/

/-- Reading a laid-out object whose members begin with a quoted key wraps the
member reading. -/
theorem parseVal_obj (f : Nat) (cs : List Char) (out : List (String × PyVal))
    (rest : List Char) (hhead : ∃ Y, jsSkip cs = qmark :: Y)
    (hmems : parseMems f cs = some (out, rest)) :
    parseVal (f + 1) (obrace :: ('\n' :: cs)) = some (.obj out, rest) := by
  rw [parseVal.eq_def]
  dsimp only
  rw [show jsSkip (obrace :: ('\n' :: cs)) = obrace :: ('\n' :: cs) from rfl]
  dsimp only
  rw [if_neg (by decide), if_neg (by decide), if_pos rfl]
  obtain ⟨Y, hY⟩ := hhead
  rw [show jsSkip ('\n' :: cs) = jsSkip cs from rfl, hY]
  dsimp only
  rw [if_neg (by decide)]
  rw [parseMems_ws f (qmark :: Y) cs (by rw [jsSkip_cons_not Y (by decide), hY])]
  rw [hmems]
  rfl

/-- Reading the record's laid-out member lines yields its eight key/value
pairs in order. -/
theorem parseMems_membersChain (info : Info)
    (hp : (info.peso_kg * 10).den = 1) (ha : (info.altura_m * 10).den = 1)
    (rest : List Char) :
    ∀ g, info.tipos.length + info.habilidades.length
        + info.movimientos_principales.length + 24 ≤ g →
      parseMems g (membersChain info rest)
        = some ([("nombre", .str info.nombre),
                 ("id", .int info.id),
                 ("peso_kg", .float info.peso_kg),
                 ("altura_m", .float info.altura_m),
                 ("imagen_frontal_url", match info.imagen_frontal_url with
                    | none => .null | some s => .str s),
                 ("tipos", .arr (info.tipos.map PyVal.str)),
                 ("habilidades", .arr (info.habilidades.map PyVal.str)),
                 ("movimientos_principales",
                    .arr (info.movimientos_principales.map PyVal.str))], rest) := by
  have h8 : ∀ f, info.movimientos_principales.length + 4 ≤ f →
      parseMems f (memberTail "movimientos_principales"
          (strListChars info.movimientos_principales) ('\n' :: (cbrace :: rest)))
        = some ([("movimientos_principales",
            .arr (info.movimientos_principales.map PyVal.str))], rest) := by
    intro f hf
    rw [memberTail]
    exact parseMems_last _ _ _ _ (info.movimientos_principales.length + 3)
      (fun g' hg' => parseVal_strList g' _ _ (by omega)) f (by omega)
  have h7 : ∀ f, info.habilidades.length + info.movimientos_principales.length + 9 ≤ f →
      parseMems f (memberTail "habilidades" (strListChars info.habilidades)
          (',' :: ('\n' :: memberTail "movimientos_principales"
            (strListChars info.movimientos_principales) ('\n' :: (cbrace :: rest)))))
        = some ([("habilidades", .arr (info.habilidades.map PyVal.str)),
                 ("movimientos_principales",
                    .arr (info.movimientos_principales.map PyVal.str))], rest) := by
    intro f hf
    rw [memberTail]
    exact parseMems_more _ _ _ _ _ _ (info.habilidades.length + 3)
      (info.movimientos_principales.length + 4)
      (fun g' hg' => parseVal_strList g' _ _ (by omega)) h8 f (by omega)
  have h6 : ∀ f, info.tipos.length + info.habilidades.length
        + info.movimientos_principales.length + 14 ≤ f →
      parseMems f (memberTail "tipos" (strListChars info.tipos)
          (',' :: ('\n' :: memberTail "habilidades" (strListChars info.habilidades)
            (',' :: ('\n' :: memberTail "movimientos_principales"
              (strListChars info.movimientos_principales) ('\n' :: (cbrace :: rest)))))))
        = some ([("tipos", .arr (info.tipos.map PyVal.str)),
                 ("habilidades", .arr (info.habilidades.map PyVal.str)),
                 ("movimientos_principales",
                    .arr (info.movimientos_principales.map PyVal.str))], rest) := by
    intro f hf
    rw [memberTail]
    exact parseMems_more _ _ _ _ _ _ (info.tipos.length + 3)
      (info.habilidades.length + info.movimientos_principales.length + 9)
      (fun g' hg' => parseVal_strList g' _ _ (by omega)) h7 f (by omega)
  have h5 : ∀ f, info.tipos.length + info.habilidades.length
        + info.movimientos_principales.length + 16 ≤ f →
      parseMems f (memberTail "imagen_frontal_url"
          (optStrChars info.imagen_frontal_url)
          (',' :: ('\n' :: memberTail "tipos" (strListChars info.tipos)
            (',' :: ('\n' :: memberTail "habilidades" (strListChars info.habilidades)
              (',' :: ('\n' :: memberTail "movimientos_principales"
                (strListChars info.movimientos_principales)
                ('\n' :: (cbrace :: rest)))))))))
        = some ([("imagen_frontal_url", match info.imagen_frontal_url with
                    | none => .null | some s => .str s),
                 ("tipos", .arr (info.tipos.map PyVal.str)),
                 ("habilidades", .arr (info.habilidades.map PyVal.str)),
                 ("movimientos_principales",
                    .arr (info.movimientos_principales.map PyVal.str))], rest) := by
    intro f hf
    rw [memberTail]
    exact parseMems_more _ _ _ _ _ _ 1
      (info.tipos.length + info.habilidades.length
        + info.movimientos_principales.length + 14)
      (fun g' hg' => parseVal_optStr g' hg' info.imagen_frontal_url _) h6 f (by omega)
  have h4 : ∀ f, info.tipos.length + info.habilidades.length
        + info.movimientos_principales.length + 18 ≤ f →
      parseMems f (memberTail "altura_m" (floatChars info.altura_m)
          (',' :: ('\n' :: memberTail "imagen_frontal_url"
            (optStrChars info.imagen_frontal_url)
            (',' :: ('\n' :: memberTail "tipos" (strListChars info.tipos)
              (',' :: ('\n' :: memberTail "habilidades" (strListChars info.habilidades)
                (',' :: ('\n' :: memberTail "movimientos_principales"
                  (strListChars info.movimientos_principales)
                  ('\n' :: (cbrace :: rest)))))))))))
        = some ([("altura_m", .float info.altura_m),
                 ("imagen_frontal_url", match info.imagen_frontal_url with
                    | none => .null | some s => .str s),
                 ("tipos", .arr (info.tipos.map PyVal.str)),
                 ("habilidades", .arr (info.habilidades.map PyVal.str)),
                 ("movimientos_principales",
                    .arr (info.movimientos_principales.map PyVal.str))], rest) := by
    intro f hf
    rw [memberTail]
    exact parseMems_more _ _ _ _ _ _ 1
      (info.tipos.length + info.habilidades.length
        + info.movimientos_principales.length + 16)
      (fun g' hg' => parseVal_float g' hg' info.altura_m ha _ rfl) h5 f (by omega)
  have h3 : ∀ f, info.tipos.length + info.habilidades.length
        + info.movimientos_principales.length + 20 ≤ f →
      parseMems f (memberTail "peso_kg" (floatChars info.peso_kg)
          (',' :: ('\n' :: memberTail "altura_m" (floatChars info.altura_m)
            (',' :: ('\n' :: memberTail "imagen_frontal_url"
              (optStrChars info.imagen_frontal_url)
              (',' :: ('\n' :: memberTail "tipos" (strListChars info.tipos)
                (',' :: ('\n' :: memberTail "habilidades"
                  (strListChars info.habilidades)
                  (',' :: ('\n' :: memberTail "movimientos_principales"
                    (strListChars info.movimientos_principales)
                    ('\n' :: (cbrace :: rest)))))))))))))
        = some ([("peso_kg", .float info.peso_kg),
                 ("altura_m", .float info.altura_m),
                 ("imagen_frontal_url", match info.imagen_frontal_url with
                    | none => .null | some s => .str s),
                 ("tipos", .arr (info.tipos.map PyVal.str)),
                 ("habilidades", .arr (info.habilidades.map PyVal.str)),
                 ("movimientos_principales",
                    .arr (info.movimientos_principales.map PyVal.str))], rest) := by
    intro f hf
    rw [memberTail]
    exact parseMems_more _ _ _ _ _ _ 1
      (info.tipos.length + info.habilidades.length
        + info.movimientos_principales.length + 18)
      (fun g' hg' => parseVal_float g' hg' info.peso_kg hp _ rfl) h4 f (by omega)
  have h2 : ∀ f, info.tipos.length + info.habilidades.length
        + info.movimientos_principales.length + 22 ≤ f →
      parseMems f (memberTail "id" (intChars info.id)
          (',' :: ('\n' :: memberTail "peso_kg" (floatChars info.peso_kg)
            (',' :: ('\n' :: memberTail "altura_m" (floatChars info.altura_m)
              (',' :: ('\n' :: memberTail "imagen_frontal_url"
                (optStrChars info.imagen_frontal_url)
                (',' :: ('\n' :: memberTail "tipos" (strListChars info.tipos)
                  (',' :: ('\n' :: memberTail "habilidades"
                    (strListChars info.habilidades)
                    (',' :: ('\n' :: memberTail "movimientos_principales"
                      (strListChars info.movimientos_principales)
                      ('\n' :: (cbrace :: rest)))))))))))))))
        = some ([("id", .int info.id),
                 ("peso_kg", .float info.peso_kg),
                 ("altura_m", .float info.altura_m),
                 ("imagen_frontal_url", match info.imagen_frontal_url with
                    | none => .null | some s => .str s),
                 ("tipos", .arr (info.tipos.map PyVal.str)),
                 ("habilidades", .arr (info.habilidades.map PyVal.str)),
                 ("movimientos_principales",
                    .arr (info.movimientos_principales.map PyVal.str))], rest) := by
    intro f hf
    rw [memberTail]
    exact parseMems_more _ _ _ _ _ _ 1
      (info.tipos.length + info.habilidades.length
        + info.movimientos_principales.length + 20)
      (fun g' hg' => parseVal_int g' hg' info.id _ rfl rfl) h3 f (by omega)
  intro g hg
  rw [membersChain, memberTail]
  exact parseMems_more _ _ _ _ _ _ 1
    (info.tipos.length + info.habilidades.length
      + info.movimientos_principales.length + 22)
    (fun g' hg' => parseVal_str g' hg' info.nombre _) h2 g (by omega)

/-- The serialized record is the object opener followed by the member
chain. -/
theorem infoContent_shape (info : Info) (rest : List Char) :
    infoContentChars info ++ rest = obrace :: ('\n' :: membersChain info rest) := by
  simp [infoContentChars, memberChars, membersChain, memberTail, List.append_assoc]

/-- The member chain begins with the first member's quoted key. -/
theorem membersChain_head (info : Info) (rest : List Char) :
    ∃ Y, jsSkip (membersChain info rest) = qmark :: Y := by
  rw [membersChain, memberTail]
  exact ⟨_, jsSkip_ind4_str "nombre" _⟩

/-- Reading the serialized record recovers its JSON value, leaving any
trailing input. -/
theorem parseVal_infoContent (info : Info)
    (hp : (info.peso_kg * 10).den = 1) (ha : (info.altura_m * 10).den = 1) :
    ∀ f, info.tipos.length + info.habilidades.length
        + info.movimientos_principales.length + 25 ≤ f →
      ∀ rest, parseVal f (infoContentChars info ++ rest)
        = some (infoToJson info, rest) := by
  intro f hf rest
  obtain ⟨g, rfl⟩ : ∃ g, f = g + 1 := ⟨f - 1, by omega⟩
  rw [infoContent_shape]
  exact parseVal_obj g (membersChain info rest) _ rest (membersChain_head info rest)
    (parseMems_membersChain info hp ha rest g (by omega))

/-- A rendered string literal has at least its two quotes. -/
theorem strChars_len (s : String) : 2 ≤ (strChars s).length := by
  simp [strChars]

/-- Rendered list elements are at least as long as their count. -/
theorem strItemsChars_len (ss : List String) :
    ∀ s, ss.length + 2 ≤ (strItemsChars s ss).length := by
  induction ss with
  | nil =>
      intro s
      rw [strItemsChars]
      exact strChars_len s
  | cons t ts ih =>
      intro s
      rw [strItemsChars]
      have h1 := ih t
      have h2 := strChars_len s
      simp [ind8]
      omega

/-- A rendered string list is longer than its element count. -/
theorem strListChars_len (l : List String) : l.length + 2 ≤ (strListChars l).length := by
  cases l with
  | nil => simp [strListChars]
  | cons s ss =>
      rw [strListChars]
      have h := strItemsChars_len ss s
      simp [ind8, ind4]
      omega

/-- The serialized record is long enough to fuel its own reading. -/
theorem infoContent_len (info : Info) :
    info.tipos.length + info.habilidades.length
        + info.movimientos_principales.length + 25
      ≤ (infoContentChars info).length + 1 := by
  have h6 := strListChars_len info.tipos
  have h7 := strListChars_len info.habilidades
  have h8 := strListChars_len info.movimientos_principales
  have k1 := strChars_len "nombre"
  simp [infoContentChars, memberChars, ind4]
  omega

/-- C8: parsing the JSON file written for an extracted record yields exactly
the record's JSON value — every field round-trips (strings through escaping,
the identifier, the two tenth-valued floats, the nullable URL, and the three
string lists). The two hypotheses say the floats are integer multiples of one
tenth, which holds for every record the extractor produces. -/
theorem claim_C8 (info : Info) (hp : (info.peso_kg * 10).den = 1)
    (ha : (info.altura_m * 10).den = 1) :
    parseJson (infoContent info) = some (infoToJson info) := by
  rw [parseJson, infoContent]
  have h := parseVal_infoContent info hp ha
    ((infoContentChars info).length + 1) (infoContent_len info) []
  rw [List.append_nil] at h
  rw [show (String.mk (infoContentChars info)).data = infoContentChars info from rfl]
  rw [h]
  dsimp only
  rw [if_pos (show jsSkip ([] : List Char) = [] from rfl)]

/-- C8, witness: the concrete scenario record round-trips through its file
contents. -/
theorem claim_C8_witness :
    (infoBulba.peso_kg * 10).den = 1 ∧
    parseJson (infoContent infoBulba) = some (infoToJson infoBulba) := by
  have hp : (infoBulba.peso_kg * 10).den = 1 := by
    rw [show infoBulba.peso_kg * 10 = (69 : ℚ) from by norm_num [infoBulba]]
    simp
  have ha : (infoBulba.altura_m * 10).den = 1 := by
    rw [show infoBulba.altura_m * 10 = (7 : ℚ) from by norm_num [infoBulba]]
    simp
  exact ⟨hp, claim_C8 infoBulba hp ha⟩

end Pokedex
